import Mathlib

/-!
# Verification of the Bridge webhook-to-queue dispatch service

Shallow embedding of the webhook handlers of the Bridge repository
(`src/index.ts`, `src/queue.ts` and their companion variants): the ERP
change-event debounce path, the sales-quote webhook, the vendor-quote-approval
webhook and the Microsoft Graph mail-notification webhook, together with the
BullMQ job options each path submits.

JavaScript payloads are modelled by the inductive type `JVal` (JSON values
plus `NaN`); absent object fields are modelled by `Option` results of field
lookup, matching the JS distinction between an `undefined` read and a present
value.  Numbers are modelled as integers, which covers every value the claims
touch; the JS `ToNumber` coercion is reproduced for null, booleans, numbers
and decimal-integer strings.
-/

/-- A JavaScript/JSON value as seen by the webhook handlers.  `vNaN` is the
IEEE NaN produced by arithmetic on non-numeric operands. -/
inductive JVal where
  | vNull
  | vNaN
  | vBool (b : Bool)
  | vNum (n : Int)
  | vStr (s : String)
  | vArr (elems : List JVal)
  | vObj (fields : List (String × JVal))
deriving Repr, Inhabited

namespace JVal

/-- JavaScript truthiness. Arrays and objects are always truthy; `0`, `""`,
`null`, `NaN` and `false` are falsy. -/
def truthy : JVal → Bool
  | vNull => false
  | vNaN => false
  | vBool b => b
  | vNum n => n != 0
  | vStr s => s != ""
  | vArr _ => true
  | vObj _ => true

/-- Property read `v[name]`: defined on objects, `undefined` (`none`)
otherwise.  A read on a missing property is `none`. -/
def getField : JVal → String → Option JVal
  | vObj fs, n => fs.lookup n
  | _, _ => none

end JVal

open JVal

/-- Truthiness of a possibly-undefined value: `undefined` is falsy. -/
def truthyO : Option JVal → Bool
  | none => false
  | some v => v.truthy

/-- JavaScript `a || b` where `a` may be `undefined`: yields `a` when truthy,
otherwise `b`. -/
def jsOr (a : Option JVal) (b : JVal) : JVal :=
  match a with
  | some v => if v.truthy then v else b
  | none => b

/-- Full template-literal stringification with an explicit structural depth
budget (always called with a budget at least the array-nesting depth, so the
exhausted arm is unreachable): scalars render as in JS, arrays join their
stringified elements with `,` (a `null` element rendering empty, as JS
`Array.prototype.toString` does), objects render as `[object Object]`. -/
def jsTemplateFuel : Nat → JVal → String
  | _, .vNull => "null"
  | _, .vNaN => "NaN"
  | _, .vBool b => if b then "true" else "false"
  | _, .vNum n => toString n
  | _, .vStr s => s
  | _, .vObj _ => "[object Object]"
  | 0, .vArr _ => ""
  | f + 1, .vArr xs =>
      String.intercalate "," (xs.map (fun v =>
        match v with
        | .vNull => ""
        | v => jsTemplateFuel f v))

/-- Nesting depth of a JS value (1 for scalars and objects). -/
def jsDepth : JVal → Nat
  | .vArr xs => 1 + xs.attach.foldl (fun acc e => max acc (jsDepth e.1)) 0
  | _ => 1
decreasing_by
  have := List.sizeOf_lt_of_mem e.2
  simp only [JVal.vArr.sizeOf_spec]
  omega

/-- Template-literal stringification `${v}` of a JS value, as used to build
debounce keys and job ids. -/
def jsTemplate : JVal → String
  | .vNull => "null"
  | .vNaN => "NaN"
  | .vBool b => if b then "true" else "false"
  | .vNum n => toString n
  | .vStr s => s
  | .vObj _ => "[object Object]"
  | .vArr xs => jsTemplateFuel (jsDepth (.vArr xs)) (.vArr xs)

/-- Stringification of a possibly-undefined value: JS renders `undefined` in a
template literal as the string `undefined`. -/
def jsTemplateO : Option JVal → String
  | none => "undefined"
  | some v => jsTemplate v

/-- JS `ToNumber` on a possibly-undefined value, with `none` as NaN:
`undefined → NaN`, `null → 0`, booleans to 0/1, numbers unchanged, strings by
trimming then decimal-integer parse (empty string → 0), objects → NaN, arrays
via their string form. -/
def toNumber : Option JVal → Option Int
  | none => none
  | some .vNull => some 0
  | some .vNaN => none
  | some (.vBool b) => some (if b then 1 else 0)
  | some (.vNum n) => some n
  | some (.vStr s) =>
      let t := s.trim
      if t = "" then some 0 else t.toInt?
  | some (.vObj _) => none
  | some (.vArr xs) =>
      let t := (jsTemplate (.vArr xs)).trim
      if t = "" then some 0 else t.toInt?

/-- JS multiplication `a * b` on possibly-undefined operands: numeric when
both coerce to numbers, NaN otherwise. -/
def jsMul (a b : Option JVal) : JVal :=
  match toNumber a, toNumber b with
  | some x, some y => .vNum (x * y)
  | _, _ => .vNaN

/-- Build an object literal whose properties may be `undefined`; an
`undefined` property is omitted, matching the JSON image of the object. -/
def mkObj (fs : List (String × Option JVal)) : JVal :=
  .vObj (fs.filterMap (fun p => p.2.map (fun v => (p.1, v))))

/-! ## BullMQ job options (`src/queue.ts` variants) -/

/-- A BullMQ `removeOnComplete` / `removeOnFail` value: `true` (remove as soon
as finished), `false` (keep indefinitely), or a keep rule bounded by age in
seconds and count. -/
inductive RemoveRule where
  | always
  | never
  | keep (age : Nat) (count : Nat)
deriving Repr, DecidableEq

/-- BullMQ backoff options: a strategy name and a base delay in
milliseconds. -/
structure Backoff where
  btype : String
  delay : Nat
deriving Repr, DecidableEq

/-- BullMQ per-job options as passed to `Queue.add` (or as a queue's
`defaultJobOptions`).  `none` fields are left unset and fall back to the
queue's defaults. -/
structure JobOptions where
  jobId : Option String := none
  attempts : Option Nat := none
  backoff : Option Backoff := none
  removeOnComplete : Option RemoveRule := none
  removeOnFail : Option RemoveRule := none
deriving Repr, DecidableEq

/-- BullMQ resolution of effective options: each field of the per-job options
overrides the queue's `defaultJobOptions` when set. -/
def effectiveOptions (defaults opts : JobOptions) : JobOptions where
  jobId := opts.jobId.orElse (fun _ => defaults.jobId)
  attempts := opts.attempts.orElse (fun _ => defaults.attempts)
  backoff := opts.backoff.orElse (fun _ => defaults.backoff)
  removeOnComplete := opts.removeOnComplete.orElse (fun _ => defaults.removeOnComplete)
  removeOnFail := opts.removeOnFail.orElse (fun _ => defaults.removeOnFail)

/-- `defaultJobOptions` of the `producer` queues (`bc-events` in
`src/queue.ts`, `pg-events` in its companion): 5 attempts, exponential backoff
with 2000 ms base, remove completed jobs immediately, keep failed jobs. -/
def producerDefaults : JobOptions where
  attempts := some 5
  backoff := some { btype := "exponential", delay := 2000 }
  removeOnComplete := some .always
  removeOnFail := some .never

/-- `defaultJobOptions` of the `rfq` queue (`rfqQueue`): 3 attempts,
exponential backoff with 1000 ms base, completed jobs kept 24 h up to 500,
failed jobs kept 7 days up to 500. -/
def rfqQueueDefaults : JobOptions where
  attempts := some 3
  backoff := some { btype := "exponential", delay := 1000 }
  removeOnComplete := some (.keep (24 * 3600) 500)
  removeOnFail := some (.keep (7 * 24 * 3600) 500)

/-- A job submission handed to `Queue.add`: target queue, job name, data
payload and per-job options. -/
structure Job where
  queue : String
  name : String
  data : JVal
  opts : JobOptions
deriving Repr

/-! ## ERP change-event webhook (`POST /webhook`) -/

/-- Outcome of the `POST /webhook` handler's classification of an ERP change
event, before any timer is touched: the 400 rejections and the accepted case
carrying the debounce key `table:erpNo`. -/
inductive ErpOutcome where
  | invalidPayload
  | erpNoMissing
  | accepted (key : String)
deriving Repr, DecidableEq

/-- Classification step of `POST /webhook`: requires truthy `table`, `action`
and `data` fields, then a truthy business key `data["No."]`; on success the
debounce key is the template string `` `${table}:${erpNo}` ``. -/
def erpClassify (payload : JVal) : ErpOutcome :=
  if truthyO (payload.getField "table") && truthyO (payload.getField "action")
      && truthyO (payload.getField "data") then
    let erpNo := (payload.getField "data").bind (fun d => d.getField "No.")
    if truthyO erpNo then
      .accepted (jsTemplateO (payload.getField "table") ++ ":" ++ jsTemplateO erpNo)
    else
      .erpNoMissing
  else
    .invalidPayload

/-- The debounce quiescence window `DEBOUNCE_MS` (10 seconds). -/
def DEBOUNCE_MS : Nat := 10000

/-! ## Debounce coordinator state machine (`POST /webhook`, lines 16–59)

The handler keeps `pendingEvents : Map<string, Timeout>` and a 10 s debounce:
on each accepted event it clears any mapped timer for the key, schedules a new
timer holding the event's payload, and stores it in the map.  When a timer
fires, its callback submits `producer.add("bc-sync", payload)` and, in a
`finally` block *after the awaited submission resolves*, deletes the map entry
for the key.  The model below is a small-step machine over the single-threaded
event loop: `arrive` is an HTTP request, `fire` runs a due timer callback up
to the point where the submission is issued, and `resolve` is the resumption
of that callback after the awaited `producer.add` settles (its `finally`
delete).  Every action carries the wall-clock time at which it runs; time is
monotone. -/

/-- A `setTimeout` timer: identity, debounce key, captured payload, due time,
and whether it is still scheduled (not yet fired and not cleared). -/
structure Timer where
  tid : Nat
  key : String
  payload : JVal
  fireAt : Nat
  active : Bool
deriving Repr

/-- A fired timer callback whose awaited `producer.add` has not yet settled:
its `finally` block (which deletes the map entry for `key`) is still
pending. -/
structure InFlight where
  tid : Nat
  key : String
deriving Repr

/-- State of the debounce coordinator: current time, all timers ever created,
the `pendingEvents` map (association list, key to timer id), callbacks whose
submission is in flight, the jobs submitted to the broker so far, and the next
fresh timer id. -/
structure DState where
  time : Nat
  timers : List Timer
  pmap : List (String × Nat)
  inflight : List InFlight
  submitted : List Job
  nextId : Nat
deriving Repr

/-- Initial state of the service: empty `pendingEvents`, nothing submitted. -/
def dInit : DState := ⟨0, [], [], [], [], 0⟩

/-- Events of the single-threaded event loop, each stamped with the time at
which it runs. -/
inductive DAct where
  | arrive (t : Nat) (payload : JVal)
  | fire (t : Nat) (tid : Nat)
  | resolve (t : Nat) (tid : Nat)
deriving Repr

/-- Mark the timer with id `tid` as no longer scheduled (`clearTimeout`, or
the timer having fired). -/
def deactivate (tid : Nat) (ts : List Timer) : List Timer :=
  ts.map (fun tm => if tm.tid = tid then { tm with active := false } else tm)

/-- `Map.prototype.set`: bind `k` to `v`, replacing any previous binding. -/
def pmapSet (k : String) (v : Nat) (m : List (String × Nat)) : List (String × Nat) :=
  (k, v) :: m.filter (fun e => e.1 != k)

/-- `Map.prototype.delete`: drop the binding of `k`, if any. -/
def pmapDel (k : String) (m : List (String × Nat)) : List (String × Nat) :=
  m.filter (fun e => e.1 != k)

/-- The debounced submission `producer.add("bc-sync", payload)`: job name
`bc-sync` on the `pg-events` producer queue, with no per-job options (in
particular no `jobId`). -/
def erpJob (payload : JVal) : Job :=
  { queue := "pg-events", name := "bc-sync", data := payload, opts := {} }

/-- One step of the event loop.  `none` means the action cannot occur in this
state (time would run backwards, the timer is not due or not scheduled, or
there is no such pending submission). -/
def dStep (s : DState) (a : DAct) : Option DState :=
  match a with
  | .arrive t p =>
      if t < s.time then none else
      match erpClassify p with
      | .accepted key =>
          let timers1 :=
            match s.pmap.lookup key with
            | some tid => deactivate tid s.timers
            | none => s.timers
          some { s with
            time := t
            timers := ⟨s.nextId, key, p, t + DEBOUNCE_MS, true⟩ :: timers1
            pmap := pmapSet key s.nextId s.pmap
            nextId := s.nextId + 1 }
      | _ => some { s with time := t }
  | .fire t tid =>
      if t < s.time then none else
      match s.timers.find? (fun tm => tm.tid == tid) with
      | some tm =>
          if tm.active && tm.fireAt ≤ t then
            some { s with
              time := t
              timers := deactivate tid s.timers
              inflight := s.inflight ++ [⟨tid, tm.key⟩]
              submitted := s.submitted ++ [erpJob tm.payload] }
          else none
      | none => none
  | .resolve t tid =>
      if t < s.time then none else
      match s.inflight.find? (fun p => p.tid == tid) with
      | some p =>
          some { s with
            time := t
            inflight := s.inflight.filter (fun q => q.tid != tid)
            pmap := pmapDel p.key s.pmap }
      | none => none

/-- Run a list of event-loop actions from a state. -/
def dRun (s : DState) : List DAct → Option DState
  | [] => some s
  | a :: rest =>
      match dStep s a with
      | some s1 => dRun s1 rest
      | none => none

/-- The arrival events of a trace, in order, as (time, payload) pairs. -/
def arrivesOf : List DAct → List (Nat × JVal)
  | [] => []
  | .arrive t p :: rest => (t, p) :: arrivesOf rest
  | _ :: rest => arrivesOf rest

/-- The timers for key `k` that are currently scheduled and uncancelled. -/
def pendingFor (s : DState) (k : String) : List Timer :=
  s.timers.filter (fun tm => tm.active && tm.key == k)

/-- A state with no scheduled timer and no in-flight submission. -/
def quiescent (s : DState) : Bool :=
  s.timers.all (fun tm => !tm.active) && s.inflight.isEmpty

/-! ## Sales-quote webhook (`POST /sales-quote-webhook`, lines 61–155) -/

/-- Outcome of the sales-quote webhook: the two 400 rejections (missing
header fields; missing/empty lines) and the success case carrying the single
enqueued job.  Rejections enqueue nothing. -/
inductive SalesResult where
  | missingFields
  | noLines
  | ok (job : Job)
deriving Repr

/-- The per-line mapping inside `jobData.lines` (`payload.lines.map(...)`).
`oppNo` is `payload.opportunityNo`, used as the default for a line's own
`oppNo`. -/
def mapSalesLine (oppNo : JVal) (line : JVal) : JVal :=
  mkObj [
    ("lineNo", line.getField "lineNo"),
    ("lineSystemId", some (jsOr (line.getField "lineSystemId")
        (jsOr (line.getField "systemId") (.vStr "")))),
    ("itemNo", some (jsOr (line.getField "itemNo") (.vStr ""))),
    ("internalItemId", some (jsOr (line.getField "internalItemId")
        (jsOr (line.getField "itemNo") (.vStr "")))),
    ("description", some (jsOr (line.getField "description") (.vStr ""))),
    ("quantity", some (jsOr (line.getField "quantity") (.vNum 0))),
    ("unitCost", some (jsOr (line.getField "unitCost") (.vNum 0))),
    ("unitPrice", some (jsOr (line.getField "unitPrice") (.vNum 0))),
    ("marginPercent", some (jsOr (line.getField "marginPercent") (.vNum 0))),
    ("lineAmount", some (jsOr (line.getField "lineAmount")
        (jsMul (line.getField "unitPrice")
          (some (jsOr (line.getField "quantity") (.vNum 0)))))),
    ("purchaseQuoteNo", some (jsOr (line.getField "purchaseQuoteNo") (.vStr ""))),
    ("oppNo", some (jsOr (line.getField "oppNo") oppNo)),
    ("convertToOrder", some ((line.getField "convertToOrder").getD (.vBool true)))]

/-- The `jobData` object built by the sales-quote handler from an accepted
payload whose `lines` array is `ls`.  `nowIso` is the value of
`new Date().toISOString()` at handling time. -/
def salesQuoteJobData (nowIso : String) (payload : JVal) (ls : List JVal) : JVal :=
  mkObj [
    ("salesQuoteNo", payload.getField "salesQuoteNo"),
    ("salesQuoteSystemId", some (jsOr (payload.getField "salesQuoteSystemId")
        (jsOr (payload.getField "systemId") (.vStr "")))),
    ("customerNo", some (jsOr (payload.getField "customerNo") (.vStr ""))),
    ("customerName", some (jsOr (payload.getField "customerName") (.vStr ""))),
    ("opportunityNo", payload.getField "opportunityNo"),
    ("accountManager", some (jsOr (payload.getField "accountManager") (.vStr ""))),
    ("currencyCode", some (jsOr (payload.getField "currencyCode") (.vStr ""))),
    ("quoteValidUntil", some (jsOr (payload.getField "quoteValidUntil")
        (jsOr (payload.getField "validUntil") (.vStr "")))),
    ("validityDays", some (jsOr (payload.getField "validityDays") (.vNum 30))),
    ("totalAmount", some (jsOr (payload.getField "totalAmount") (.vNum 0))),
    ("issuedAt", some (jsOr (payload.getField "issuedAt")
        (jsOr (payload.getField "createdAt") (.vStr nowIso)))),
    ("lines", some (.vArr (ls.map
        (mapSalesLine ((payload.getField "opportunityNo").getD .vNull)))))]

/-- The `POST /sales-quote-webhook` handler: validates truthy `salesQuoteNo`
and `opportunityNo`, then a non-empty `lines` array, then enqueues one
`rfq.customer-quote-sync` job on the `rfq` queue with job id
`` `customer-quote-sync-${jobData.salesQuoteNo}` ``. -/
def salesQuoteWebhook (nowIso : String) (payload : JVal) : SalesResult :=
  if !(truthyO (payload.getField "salesQuoteNo"))
      || !(truthyO (payload.getField "opportunityNo")) then
    .missingFields
  else
    match payload.getField "lines" with
    | some (.vArr ls) =>
        if ls.isEmpty then .noLines
        else
          .ok { queue := "rfq", name := "rfq.customer-quote-sync"
                data := salesQuoteJobData nowIso payload ls
                opts := { jobId := some ("customer-quote-sync-"
                            ++ jsTemplateO (payload.getField "salesQuoteNo"))
                          removeOnComplete := some (.keep (24 * 3600) 500)
                          removeOnFail := some (.keep (7 * 24 * 3600) 500) } }
    | _ => .noLines

/-! ## Vendor-quote-approval webhook (`POST /vendor-quote-approval-webhook`,
lines 157–240) -/

/-- Outcome of the vendor-quote-approval webhook: the 400 rejection for
missing required fields, or success carrying the single enqueued job. -/
inductive VendorResult where
  | missingFields
  | ok (job : Job)
deriving Repr

/-- The `webhookData` object: a 1:1 copy of the listed payload fields
(fields absent from the payload stay absent). -/
def vendorWebhookData (payload : JVal) : JVal :=
  mkObj [
    ("mpRfqId", payload.getField "mpRfqId"),
    ("rfqLineNo", payload.getField "rfqLineNo"),
    ("vendorNo", payload.getField "vendorNo"),
    ("vendorName", payload.getField "vendorName"),
    ("unitCost", payload.getField "unitCost"),
    ("currencyCode", payload.getField "currencyCode"),
    ("leadTimeDays", payload.getField "leadTimeDays"),
    ("moq", payload.getField "moq"),
    ("validTillDate", payload.getField "validTillDate"),
    ("quoteSource", payload.getField "quoteSource"),
    ("suggestedMargin", payload.getField "suggestedMargin"),
    ("amMargin", payload.getField "amMargin"),
    ("quotedUomCode", payload.getField "quotedUomCode"),
    ("finalUnitPrice", payload.getField "finalUnitPrice"),
    ("approvalStatus", payload.getField "approvalStatus"),
    ("approvedBy", payload.getField "approvedBy"),
    ("approvedDate", payload.getField "approvedDate"),
    ("vendorQuoteReference", payload.getField "vendorQuoteReference"),
    ("systemId", payload.getField "systemId")]

/-- The `POST /vendor-quote-approval-webhook` handler: requires truthy
`mpRfqId`, `rfqLineNo`, `vendorNo` and `systemId`, then enqueues one
`rfq.quote.approval` job with job id `` `quote-approval-${payload.systemId}` ``. -/
def vendorQuoteApprovalWebhook (payload : JVal) : VendorResult :=
  if !(truthyO (payload.getField "mpRfqId"))
      || !(truthyO (payload.getField "rfqLineNo"))
      || !(truthyO (payload.getField "vendorNo"))
      || !(truthyO (payload.getField "systemId")) then
    .missingFields
  else
    .ok { queue := "rfq", name := "rfq.quote.approval"
          data := .vObj [("webhookData", vendorWebhookData payload)]
          opts := { jobId := some ("quote-approval-"
                      ++ jsTemplateO (payload.getField "systemId"))
                    removeOnComplete := some (.keep (24 * 3600) 500) } }

/-! ## Microsoft Graph webhook (`POST /graph/webhook`, lines 258–364) -/

/-- Whether a character list begins with the pattern. -/
def charsHavePre : List Char → List Char → Bool
  | [], _ => true
  | _ :: _, [] => false
  | p :: ps, c :: cs => p == c && charsHavePre ps cs

/-- Whether the pattern occurs somewhere in the character list. -/
def charsContain (pat : List Char) : List Char → Bool
  | [] => pat.isEmpty
  | c :: rest => charsHavePre pat (c :: rest) || charsContain pat rest

/-- JS `String.prototype.includes`. -/
def strIncludes (s pat : String) : Bool := charsContain pat.toList s.toList

/-- JS `String.prototype.toLowerCase` (ASCII, as used on Graph resource
paths). -/
def jsToLower (s : String) : String := String.mk (s.toList.map Char.toLower)

/-- JS `String.prototype.startsWith`. -/
def strBegins (s pat : String) : Bool := charsHavePre pat.toList s.toList

/-- Outcome of handling one record of a Graph notification batch:
`errored` models a thrown `TypeError` (destructuring `null`, or calling
`toLowerCase` on a non-string `resource`), `skipped` covers both the
"ignored, no-op" classification and a created-message record whose
`resourceData.id` is missing or falsy, and `enq` carries the enqueued
`rfq.quote-ingestion` job. -/
inductive NotifOut where
  | errored
  | skipped
  | enq (j : Job)
deriving Repr

/-- The quote-ingestion job enqueued for message id `mid`:
`rfqQueue.add("rfq.quote-ingestion", { messageId }, { jobId:
`` `quote-ingestion-${messageId}` ``, removeOnComplete: {age: 24*3600,
count: 500} })`. -/
def quoteIngestionJob (mid : JVal) : Job :=
  { queue := "rfq", name := "rfq.quote-ingestion"
    data := .vObj [("messageId", mid)]
    opts := { jobId := some ("quote-ingestion-" ++ jsTemplate mid)
              removeOnComplete := some (.keep (24 * 3600) 500) } }

/-- The `resourceData?.id` read of a notification record: `undefined` when
`resourceData` is absent, nullish or has no `id` property. -/
def notifMessageId (r : JVal) : Option JVal :=
  ((r.getField "resourceData").getD .vNull).getField "id"

/-- Handling of one notification record inside the loop: destructure the
record (a `null` record throws), then dispatch only when
`changeType === "created"` and the (lower-cased) string `resource` contains
`"/messages/"`.  When `changeType` is not the string `"created"` the `&&`
short-circuits, so a malformed `resource` is never touched; when it is, a
non-string non-nullish `resource` throws on `toLowerCase()`.  A
created-message record whose `resourceData?.id` is falsy is skipped with a
warning (`continue`); everything else is logged as ignored. -/
def notifStep (record : JVal) : NotifOut :=
  match record with
  | .vNull => .errored
  | _ =>
    match record.getField "changeType", record.getField "resource" with
    | some (.vStr "created"), some (.vStr r) =>
        if strIncludes (jsToLower r) "/messages/" then
          match notifMessageId record with
          | some mid => if mid.truthy then .enq (quoteIngestionJob mid) else .skipped
          | none => .skipped
        else .skipped
    | some (.vStr "created"), none => .skipped
    | some (.vStr "created"), some .vNull => .skipped
    | some (.vStr "created"), some _ => .errored
    | _, _ => .skipped

/-- The notification loop: processes records in order, accumulating enqueued
jobs; a thrown `TypeError` aborts the loop (the jobs already enqueued remain
enqueued) and is reported by the `false` flag. -/
def processNotifs : List JVal → List Job × Bool
  | [] => ([], true)
  | r :: rest =>
      match notifStep r with
      | .errored => ([], false)
      | .skipped => processNotifs rest
      | .enq j =>
          let p := processNotifs rest
          (j :: p.1, p.2)

/-- HTTP response of the `POST /graph/webhook` handler.  `echoText s` is a
200 response with `Content-Type: text/plain` whose body is exactly `s`;
`badRequest` is the 400 "Invalid notification format"; `acceptedResp` the
202 acceptance; `serverError` the 500 produced by the outer `catch`. -/
inductive GraphResp where
  | echoText (s : String)
  | badRequest
  | acceptedResp
  | serverError
deriving Repr, DecidableEq

/-- The `POST /graph/webhook` handler, returning the response together with
the list of jobs submitted to the queue during the request.
`validationToken` is the `validationToken` query parameter (absent: `none`);
`body` is the parsed request body (a `vStr` when the text parser matched). -/
def graphWebhookPost (validationToken : Option String) (body : JVal) :
    GraphResp × List Job :=
  match validationToken with
  | some t =>
      if t != "" then (.echoText t, [])
      else graphWebhookNotifBranch body
  | none => graphWebhookNotifBranch body
where
  graphWebhookNotifBranch (body : JVal) : GraphResp × List Job :=
    match body with
    | .vStr s =>
        if s.length < 200 && !(strBegins s "\x7b") then (.echoText s, [])
        else (.badRequest, [])
    | _ =>
        match body.getField "value" with
        | some (.vArr records) =>
            let p := processNotifs records
            (if p.2 then .acceptedResp else .serverError, p.1)
        | _ => (.badRequest, [])

/-! ## Inversion lemmas for the handlers -/

/-- The job options attached to the `rfq.customer-quote-sync` submission. -/
def customerQuoteSyncOpts (p : JVal) : JobOptions where
  jobId := some ("customer-quote-sync-" ++ jsTemplateO (p.getField "salesQuoteNo"))
  removeOnComplete := some (.keep (24 * 3600) 500)
  removeOnFail := some (.keep (7 * 24 * 3600) 500)

theorem salesQuoteWebhook_ok {now : String} {p : JVal} {j : Job}
    (h : salesQuoteWebhook now p = .ok j) :
    ∃ ls, p.getField "lines" = some (.vArr ls) ∧ ls.isEmpty = false ∧
      j = { queue := "rfq", name := "rfq.customer-quote-sync"
            data := salesQuoteJobData now p ls
            opts := customerQuoteSyncOpts p } := by
  unfold salesQuoteWebhook at h
  split at h
  · exact absurd h (by simp)
  · split at h
    · next ls heq =>
      split at h
      · exact absurd h (by simp)
      · next hne =>
        refine ⟨ls, heq, by simpa using hne, ?_⟩
        cases h
        rfl
    · exact absurd h (by simp)

/-- The job options attached to the `rfq.quote.approval` submission. -/
def quoteApprovalOpts (p : JVal) : JobOptions where
  jobId := some ("quote-approval-" ++ jsTemplateO (p.getField "systemId"))
  removeOnComplete := some (.keep (24 * 3600) 500)

theorem vendorQuoteApprovalWebhook_ok {p : JVal} {j : Job}
    (h : vendorQuoteApprovalWebhook p = .ok j) :
    j = { queue := "rfq", name := "rfq.quote.approval"
          data := .vObj [("webhookData", vendorWebhookData p)]
          opts := quoteApprovalOpts p } := by
  unfold vendorQuoteApprovalWebhook at h
  split at h
  · exact absurd h (by simp)
  · cases h
    rfl

theorem notifStep_enq {r : JVal} {j : Job} (h : notifStep r = .enq j) :
    ∃ mid, notifMessageId r = some mid ∧ mid.truthy = true ∧
      j = quoteIngestionJob mid := by
  unfold notifStep at h
  split at h
  · exact absurd h (by simp)
  · split at h
    · split at h
      · split at h
        · next mid hmid =>
          split at h
          · next htr =>
            refine ⟨mid, hmid, htr, ?_⟩
            cases h
            rfl
          · exact absurd h (by simp)
        · exact absurd h (by simp)
      · exact absurd h (by simp)
    · exact absurd h (by simp)
    · exact absurd h (by simp)
    · exact absurd h (by simp)
    · exact absurd h (by simp)

/-! ## Witness extraction helpers -/

/-- The job enqueued by an accepted sales-quote payload (a dummy job when the
payload is rejected). -/
def salesJobOf (now : String) (p : JVal) : Job :=
  match salesQuoteWebhook now p with
  | .ok j => j
  | _ => erpJob .vNull

/-- The job enqueued by an accepted vendor-quote-approval payload (a dummy
job when the payload is rejected). -/
def vendorJobOf (p : JVal) : Job :=
  match vendorQuoteApprovalWebhook p with
  | .ok j => j
  | _ => erpJob .vNull

/-- The job enqueued for a dispatch-worthy Graph notification record (a dummy
job otherwise). -/
def notifJobOf (r : JVal) : Job :=
  match notifStep r with
  | .enq j => j
  | _ => erpJob .vNull

/-- A sales-quote payload accepted by the handler. -/
def wSalesPayload : JVal :=
  .vObj [("salesQuoteNo", .vStr "SQ100"), ("opportunityNo", .vStr "OPP1"),
    ("customerNo", .vStr "C1"),
    ("lines", .vArr [.vObj [("lineNo", .vNum 1), ("unitPrice", .vNum 5),
      ("quantity", .vNum 2)]])]

/-- A second accepted sales-quote payload sharing `salesQuoteNo` with
`wSalesPayload` but differing elsewhere. -/
def wSalesPayload2 : JVal :=
  .vObj [("salesQuoteNo", .vStr "SQ100"), ("opportunityNo", .vStr "OPP2"),
    ("customerNo", .vStr "C2"),
    ("lines", .vArr [.vObj [("lineNo", .vNum 7), ("unitPrice", .vNum 9),
      ("quantity", .vNum 1)]])]

/-- A vendor-quote-approval payload accepted by the handler. -/
def wVendorPayload : JVal :=
  .vObj [("mpRfqId", .vStr "RFQ7"), ("rfqLineNo", .vNum 2),
    ("vendorNo", .vStr "V9"), ("systemId", .vStr "SYS-42"),
    ("approvalStatus", .vStr "Approved")]

/-- A second accepted approval payload sharing `systemId` with
`wVendorPayload`. -/
def wVendorPayload2 : JVal :=
  .vObj [("mpRfqId", .vStr "RFQ8"), ("rfqLineNo", .vNum 5),
    ("vendorNo", .vStr "V3"), ("systemId", .vStr "SYS-42"),
    ("approvalStatus", .vStr "Rejected")]

/-- A dispatch-worthy Graph notification record. -/
def wNotifRec : JVal :=
  .vObj [("subscriptionId", .vStr "sub1"), ("changeType", .vStr "created"),
    ("resource", .vStr "Users/u1/Messages/m1"),
    ("resourceData", .vObj [("id", .vStr "m1")])]

/-- A second dispatch-worthy record sharing `resourceData.id` with
`wNotifRec`. -/
def wNotifRec2 : JVal :=
  .vObj [("subscriptionId", .vStr "sub2"), ("changeType", .vStr "created"),
    ("resource", .vStr "Users/u2/mailFolders/f/messages/m1"),
    ("resourceData", .vObj [("id", .vStr "m1")])]

/-! ## C3 — dedupe-key determinism -/

/-- C3: for any two dispatch requests built from payloads that agree on the
identity-bearing field of their job family — `salesQuoteNo` for
customer-quote sync, `systemId` for quote approval, `resourceData.id`
(the message id) for quote ingestion — the derived broker job identity
(`jobId` string) is byte-equal. -/
theorem dedupeKeyDeterminism :
    (∀ now1 now2 p q jp jq, salesQuoteWebhook now1 p = .ok jp →
        salesQuoteWebhook now2 q = .ok jq →
        p.getField "salesQuoteNo" = q.getField "salesQuoteNo" →
        jp.opts.jobId = jq.opts.jobId)
  ∧ (∀ p q jp jq, vendorQuoteApprovalWebhook p = .ok jp →
        vendorQuoteApprovalWebhook q = .ok jq →
        p.getField "systemId" = q.getField "systemId" →
        jp.opts.jobId = jq.opts.jobId)
  ∧ (∀ r1 r2 j1 j2, notifStep r1 = .enq j1 → notifStep r2 = .enq j2 →
        notifMessageId r1 = notifMessageId r2 →
        j1.opts.jobId = j2.opts.jobId) := by
  refine ⟨?_, ?_, ?_⟩
  · intro now1 now2 p q jp jq hp hq hid
    obtain ⟨_, _, _, rfl⟩ := salesQuoteWebhook_ok hp
    obtain ⟨_, _, _, rfl⟩ := salesQuoteWebhook_ok hq
    simp [customerQuoteSyncOpts, jsTemplateO, hid]
  · intro p q jp jq hp hq hid
    obtain rfl := vendorQuoteApprovalWebhook_ok hp
    obtain rfl := vendorQuoteApprovalWebhook_ok hq
    simp [quoteApprovalOpts, jsTemplateO, hid]
  · intro r1 r2 j1 j2 h1 h2 hid
    obtain ⟨m1, hm1, _, rfl⟩ := notifStep_enq h1
    obtain ⟨m2, hm2, _, rfl⟩ := notifStep_enq h2
    rw [hm1, hm2] at hid
    cases hid
    rfl

/-- Witness for C3 at concrete accepted payloads of each family. -/
theorem dedupeKeyDeterminism_witness :
    (salesJobOf "t1" wSalesPayload).opts.jobId
        = (salesJobOf "t2" wSalesPayload2).opts.jobId
  ∧ (vendorJobOf wVendorPayload).opts.jobId
        = (vendorJobOf wVendorPayload2).opts.jobId
  ∧ (notifJobOf wNotifRec).opts.jobId = (notifJobOf wNotifRec2).opts.jobId :=
  ⟨dedupeKeyDeterminism.1 "t1" "t2" wSalesPayload wSalesPayload2 _ _ rfl rfl rfl,
   dedupeKeyDeterminism.2.1 wVendorPayload wVendorPayload2 _ _ rfl rfl rfl,
   dedupeKeyDeterminism.2.2 wNotifRec wNotifRec2 _ _ (by rfl) (by rfl) rfl⟩

/-! ## C7 — retention policy of quote-ingestion jobs -/

/-- Modelled from the spec: the retention policy the spec's table assigns to
the email-reply / quote-ingestion job family — 5 attempts (stated as
inherited from the generic producer policy), exponential backoff with 2 s
base, immediate removal of completed jobs, failed jobs kept indefinitely. -/
def specEmailReplyRetention : JobOptions where
  attempts := some 5
  backoff := some { btype := "exponential", delay := 2000 }
  removeOnComplete := some .always
  removeOnFail := some .never

/-- C7 counterexample: the `rfq.quote-ingestion` job is submitted to the
`rfq` queue, so its effective policy (per-job options over the queue's
`defaultJobOptions`) differs from the claimed generic-family policy in every
component: 3 attempts (not 5), exponential backoff with 1 s base (not 2 s),
completed jobs kept 24 h / 500 (not removed immediately), failed jobs kept
7 d / 500 (not indefinitely). -/
theorem quoteIngestionRetention_counterexample :
    (effectiveOptions rfqQueueDefaults (quoteIngestionJob (.vStr "MSG1")).opts).attempts
        ≠ specEmailReplyRetention.attempts
  ∧ (effectiveOptions rfqQueueDefaults (quoteIngestionJob (.vStr "MSG1")).opts).backoff
        ≠ specEmailReplyRetention.backoff
  ∧ (effectiveOptions rfqQueueDefaults (quoteIngestionJob (.vStr "MSG1")).opts).removeOnComplete
        ≠ specEmailReplyRetention.removeOnComplete
  ∧ (effectiveOptions rfqQueueDefaults (quoteIngestionJob (.vStr "MSG1")).opts).removeOnFail
        ≠ specEmailReplyRetention.removeOnFail :=
  ⟨by decide, by decide, by decide, by decide⟩

/-- C7 amended: email-reply / quote-ingestion jobs run under the RFQ-family
policy of the `rfq` queue they are submitted to — 3 attempts, exponential
backoff with 1 s base, completed jobs kept 24 h up to 500 (set per job),
failed jobs kept 7 d up to 500 (inherited) — with the deterministic job id
`` `quote-ingestion-${messageId}` ``. -/
theorem quoteIngestionRetention_amended (mid : JVal) :
    effectiveOptions rfqQueueDefaults (quoteIngestionJob mid).opts
      = { jobId := some ("quote-ingestion-" ++ jsTemplate mid)
          attempts := some 3
          backoff := some { btype := "exponential", delay := 1000 }
          removeOnComplete := some (.keep (24 * 3600) 500)
          removeOnFail := some (.keep (7 * 24 * 3600) 500) } := rfl

/-! ## Concrete ERP change events -/

/-- An ERP change event for record `Item:X1` (price 10). -/
def pA : JVal :=
  .vObj [("table", .vStr "Item"), ("action", .vStr "update"),
    ("data", .vObj [("No.", .vStr "X1"), ("price", .vNum 10)])]

/-- A later ERP change event for the same record (price 12). -/
def pB : JVal :=
  .vObj [("table", .vStr "Item"), ("action", .vStr "update"),
    ("data", .vObj [("No.", .vStr "X1"), ("price", .vNum 12)])]

/-- A third ERP change event for the same record (price 14). -/
def pC : JVal :=
  .vObj [("table", .vStr "Item"), ("action", .vStr "update"),
    ("data", .vObj [("No.", .vStr "X1"), ("price", .vNum 14)])]

/-! ## C4 — deterministic job identity -/

theorem dStep_submitted {s s1 : DState} {a : DAct} (hstep : dStep s a = some s1) :
    s1.submitted = s.submitted ∨ ∃ p, s1.submitted = s.submitted ++ [erpJob p] := by
  cases a with
  | arrive t p =>
      simp only [dStep] at hstep
      split at hstep
      · exact absurd hstep (by simp)
      · split at hstep <;> (cases hstep; exact .inl rfl)
  | fire t tid =>
      simp only [dStep] at hstep
      split at hstep
      · exact absurd hstep (by simp)
      · split at hstep
        · split at hstep
          · cases hstep
            exact .inr ⟨_, rfl⟩
          · exact absurd hstep (by simp)
        · exact absurd hstep (by simp)
  | resolve t tid =>
      simp only [dStep] at hstep
      split at hstep
      · exact absurd hstep (by simp)
      · split at hstep
        · cases hstep
          exact .inl rfl
        · exact absurd hstep (by simp)

theorem dRun_jobId : ∀ (acts : List DAct) {s0 s : DState},
    dRun s0 acts = some s → (∀ j ∈ s0.submitted, j.opts.jobId = none) →
    ∀ j ∈ s.submitted, j.opts.jobId = none := by
  intro acts
  induction acts with
  | nil =>
      intro s0 s h hj
      cases h
      exact hj
  | cons a rest ih =>
      intro s0 s h hj
      unfold dRun at h
      split at h
      · next s1 hstep =>
        refine ih h ?_
        intro j hjm
        rcases dStep_submitted hstep with heq | ⟨p, heq⟩
        · exact hj j (heq ▸ hjm)
        · rw [heq] at hjm
          rcases List.mem_append.1 hjm with hm | hm
          · exact hj j hm
          · rw [List.mem_singleton.1 hm]
            rfl
      · exact absurd h (by simp)

/-- The event-loop trace of a single debounced ERP dispatch: one arrival,
its timer firing after the 10 s window, the submission settling. -/
def c4Trace : List DAct := [.arrive 0 pA, .fire 10000 0, .resolve 10050 0]

/-- C4 counterexample: the debounced ERP change path submits its job with
*no* job id option at all (`producer.add("bc-sync", payload)` passes no
options), so that submission's identity is not derived from the payload's
business identifiers — the broker assigns an auto-incremented id instead.
The reachable trace below ends with exactly one submission whose `jobId`
option is `none`. -/
theorem deterministicJobIdentity_counterexample :
    (dRun dInit c4Trace).map (fun s => s.submitted.map (fun j => j.opts.jobId))
      = some [none] := rfl

/-- C4 amended: the three quote-family submissions use deterministic job
identities derived from the payload's stable business identifiers
(`customer-quote-sync-<salesQuoteNo>`, `quote-approval-<systemId>`,
`quote-ingestion-<messageId>`), but the debounced ERP change path submits
with no explicit job identity, relying on debounce coalescing alone. -/
theorem deterministicJobIdentity_amended :
    (∀ now p j, salesQuoteWebhook now p = .ok j →
        j.opts.jobId = some ("customer-quote-sync-"
          ++ jsTemplateO (p.getField "salesQuoteNo")))
  ∧ (∀ p j, vendorQuoteApprovalWebhook p = .ok j →
        j.opts.jobId = some ("quote-approval-"
          ++ jsTemplateO (p.getField "systemId")))
  ∧ (∀ r j, notifStep r = .enq j → ∃ mid, notifMessageId r = some mid ∧
        j.opts.jobId = some ("quote-ingestion-" ++ jsTemplate mid))
  ∧ (∀ acts s, dRun dInit acts = some s →
        ∀ j ∈ s.submitted, j.opts.jobId = none) := by
  refine ⟨?_, ?_, ?_, ?_⟩
  · intro now p j h
    obtain ⟨_, _, _, rfl⟩ := salesQuoteWebhook_ok h
    rfl
  · intro p j h
    obtain rfl := vendorQuoteApprovalWebhook_ok h
    rfl
  · intro r j h
    obtain ⟨mid, hmid, _, rfl⟩ := notifStep_enq h
    exact ⟨mid, hmid, rfl⟩
  · intro acts s h
    exact dRun_jobId acts h (by intro j hj; exact absurd hj (by simp [dInit]))

/-- Witness for C4 at concrete inputs from every family, including the
debounced ERP trace. -/
theorem deterministicJobIdentity_witness :
    (salesJobOf "t0" wSalesPayload).opts.jobId = some "customer-quote-sync-SQ100"
  ∧ (vendorJobOf wVendorPayload).opts.jobId = some "quote-approval-SYS-42"
  ∧ (∃ mid, notifMessageId wNotifRec = some mid ∧
      (notifJobOf wNotifRec).opts.jobId = some ("quote-ingestion-" ++ jsTemplate mid))
  ∧ (erpJob pA).opts.jobId = none := by
  refine ⟨?_, ?_, ?_, ?_⟩
  · exact (deterministicJobIdentity_amended.1 "t0" wSalesPayload
      (salesJobOf "t0" wSalesPayload) (by rfl)).trans (by rfl)
  · exact (deterministicJobIdentity_amended.2.1 wVendorPayload
      (vendorJobOf wVendorPayload) (by rfl)).trans (by rfl)
  · exact deterministicJobIdentity_amended.2.2.1 wNotifRec (notifJobOf wNotifRec) (by rfl)
  · exact deterministicJobIdentity_amended.2.2.2 c4Trace ((dRun dInit c4Trace).getD dInit)
      rfl (erpJob pA) (List.Mem.head _)

/-! ## C8 — sales-quote field defaulting -/

theorem mapSalesLine_convertToOrder (opp line : JVal) :
    (mapSalesLine opp line).getField "convertToOrder"
      = some ((line.getField "convertToOrder").getD (.vBool true)) := by
  cases h : line.getField "lineNo" <;> simp only [mapSalesLine, mkObj, h] <;> rfl

theorem mapSalesLine_lineAmount (opp line : JVal) :
    (mapSalesLine opp line).getField "lineAmount"
      = some (jsOr (line.getField "lineAmount")
          (jsMul (line.getField "unitPrice")
            (some (jsOr (line.getField "quantity") (.vNum 0))))) := by
  cases h : line.getField "lineNo" <;> simp only [mapSalesLine, mkObj, h] <;> rfl

theorem salesQuoteJobData_validityDays (now : String) (p : JVal) (ls : List JVal) :
    (salesQuoteJobData now p ls).getField "validityDays"
      = some (jsOr (p.getField "validityDays") (.vNum 30)) := by
  cases h1 : p.getField "salesQuoteNo" <;> cases h2 : p.getField "opportunityNo" <;>
    simp only [salesQuoteJobData, mkObj, h1, h2] <;> rfl

theorem salesQuoteJobData_lines (now : String) (p : JVal) (ls : List JVal) :
    (salesQuoteJobData now p ls).getField "lines"
      = some (.vArr (ls.map
          (mapSalesLine ((p.getField "opportunityNo").getD .vNull)))) := by
  cases h1 : p.getField "salesQuoteNo" <;> cases h2 : p.getField "opportunityNo" <;>
    simp only [salesQuoteJobData, mkObj, h1, h2] <;> rfl

/-- A sales-quote payload that *specifies* `validityDays` as the number 0 and
a line that specifies `lineAmount` as 0 (with unitPrice 5, quantity 2). -/
def c8Payload : JVal :=
  .vObj [("salesQuoteNo", .vStr "SQ0"), ("opportunityNo", .vStr "OPP0"),
    ("validityDays", .vNum 0),
    ("lines", .vArr [.vObj [("lineNo", .vNum 1), ("unitPrice", .vNum 5),
      ("quantity", .vNum 2), ("lineAmount", .vNum 0)]])]

/-- The single line of `c8Payload`. -/
def c8Line : JVal :=
  .vObj [("lineNo", .vNum 1), ("unitPrice", .vNum 5),
    ("quantity", .vNum 2), ("lineAmount", .vNum 0)]

/-- The first mapped line of the job data built from `c8Payload`. -/
def c8JobLine : JVal :=
  match (salesJobOf "2026-01-01T00:00:00Z" c8Payload).data.getField "lines" with
  | some (.vArr (l :: _)) => l
  | _ => .vNull

/-- C8 counterexample: the defaulting is JS-truthiness-based (`||`), not
presence-based.  `c8Payload` is accepted and *specifies* `validityDays = 0`,
yet the job data carries `validityDays = 30`; its line *specifies*
`lineAmount = 0`, yet the mapped line carries `lineAmount = 10`
(`unitPrice × quantity`). -/
theorem salesQuoteDefaulting_counterexample :
    c8Payload.getField "validityDays" = some (.vNum 0)
  ∧ (salesJobOf "2026-01-01T00:00:00Z" c8Payload).data.getField "validityDays"
      = some (.vNum 30)
  ∧ (JVal.vNum 30) ≠ .vNum 0
  ∧ c8Line.getField "lineAmount" = some (.vNum 0)
  ∧ c8JobLine.getField "lineAmount" = some (.vNum 10)
  ∧ (JVal.vNum 10) ≠ .vNum 0 :=
  ⟨rfl, rfl, by simp, rfl, rfl, by simp⟩

/-- C8 amended: for every accepted sales-quote payload the job data's
`validityDays` equals the payload's value when that value is truthy and 30
otherwise (so a specified 0 yields 30); each mapped line's `convertToOrder`
equals the line's value whenever the property is present (including `false`)
and `true` otherwise; and each mapped line's `lineAmount` equals the line's
value when truthy and `unitPrice × (quantity or 0)` otherwise (so a specified
0 yields the product). -/
theorem salesQuoteDefaulting_amended :
    (∀ now p j, salesQuoteWebhook now p = .ok j →
        j.data.getField "validityDays"
            = some (jsOr (p.getField "validityDays") (.vNum 30))
      ∧ ∃ ls, p.getField "lines" = some (.vArr ls)
          ∧ j.data.getField "lines" = some (.vArr (ls.map
              (mapSalesLine ((p.getField "opportunityNo").getD .vNull)))))
  ∧ (∀ opp line, (mapSalesLine opp line).getField "convertToOrder"
        = some ((line.getField "convertToOrder").getD (.vBool true)))
  ∧ (∀ opp line, (mapSalesLine opp line).getField "lineAmount"
        = some (jsOr (line.getField "lineAmount")
            (jsMul (line.getField "unitPrice")
              (some (jsOr (line.getField "quantity") (.vNum 0)))))) := by
  refine ⟨?_, mapSalesLine_convertToOrder, mapSalesLine_lineAmount⟩
  intro now p j h
  obtain ⟨ls, hls, _, rfl⟩ := salesQuoteWebhook_ok h
  exact ⟨salesQuoteJobData_validityDays now p ls,
    ls, hls, salesQuoteJobData_lines now p ls⟩

/-- Witness for C8 at an accepted concrete payload. -/
theorem salesQuoteDefaulting_witness :
    (salesJobOf "t0" wSalesPayload).data.getField "validityDays" = some (.vNum 30)
  ∧ (mapSalesLine (.vStr "OPP1") (.vObj [("convertToOrder", .vBool false)])).getField
      "convertToOrder" = some (.vBool false)
  ∧ (mapSalesLine (.vStr "OPP1") c8Line).getField "lineAmount" = some (.vNum 10) := by
  refine ⟨?_, ?_, ?_⟩
  · exact ((salesQuoteDefaulting_amended.1 "t0" wSalesPayload
      (salesJobOf "t0" wSalesPayload) (by rfl)).1).trans (by rfl)
  · exact (salesQuoteDefaulting_amended.2.1 (.vStr "OPP1")
      (.vObj [("convertToOrder", .vBool false)])).trans (by rfl)
  · exact (salesQuoteDefaulting_amended.2.2 (.vStr "OPP1") c8Line).trans (by rfl)

/-! ## C9 — sales-quote line-array validation -/

/-- C9: the sales-quote webhook answers 400 and enqueues nothing whenever
`lines` is missing, not an array, or an empty array, even when
`salesQuoteNo` and `opportunityNo` are both present and truthy.
(`SalesResult.noLines` is the 400 "Sales quote must have at least one line"
response; it carries no job.) -/
theorem salesQuoteRejectsBadLines (now : String) (p : JVal)
    (hs : truthyO (p.getField "salesQuoteNo") = true)
    (ho : truthyO (p.getField "opportunityNo") = true)
    (hl : ∀ ls, p.getField "lines" = some (.vArr ls) → ls = []) :
    salesQuoteWebhook now p = .noLines := by
  unfold salesQuoteWebhook
  rw [hs, ho]
  simp only [Bool.not_true, Bool.or_self, Bool.false_eq_true, if_false]
  cases h : p.getField "lines" with
  | none => rfl
  | some v =>
      cases v with
      | vArr ls =>
          have : ls = [] := hl ls h
          subst this
          rfl
      | vNull => rfl
      | vNaN => rfl
      | vBool b => rfl
      | vNum n => rfl
      | vStr s => rfl
      | vObj fs => rfl

/-- Witness for C9: both header fields present, `lines` an empty array. -/
theorem salesQuoteRejectsBadLines_witness :
    salesQuoteWebhook "t0"
      (.vObj [("salesQuoteNo", .vStr "SQ9"), ("opportunityNo", .vStr "OPP9"),
        ("lines", .vArr [])]) = .noLines :=
  salesQuoteRejectsBadLines "t0" _ rfl rfl
    (by
      intro ls h
      have h0 : (some (.vArr ([] : List JVal)) : Option JVal) = some (.vArr ls) := h
      injection h0 with h1
      injection h1 with h2
      exact h2.symm)

/-! ## C10 — truthiness-based required-field validation -/

/-- C10: required-field validation tests JS truthiness rather than presence:
a vendor-quote-approval payload whose `rfqLineNo` is the number 0, or whose
`systemId` is the empty string, is rejected with the 400
missing-required-fields response and nothing is enqueued
(`VendorResult.missingFields` carries no job); an ERP payload whose business
key `data["No."]` is 0 or `""` is likewise rejected with the 400
"ERP No missing in data" response. -/
theorem truthinessValidationRejects :
    (∀ p, p.getField "rfqLineNo" = some (.vNum 0) →
        vendorQuoteApprovalWebhook p = .missingFields)
  ∧ (∀ p, p.getField "systemId" = some (.vStr "") →
        vendorQuoteApprovalWebhook p = .missingFields)
  ∧ (∀ p, truthyO (p.getField "table") = true →
        truthyO (p.getField "action") = true →
        truthyO (p.getField "data") = true →
        ((p.getField "data").bind (fun d => d.getField "No.") = some (.vNum 0) ∨
          (p.getField "data").bind (fun d => d.getField "No.") = some (.vStr "")) →
        erpClassify p = .erpNoMissing) := by
  refine ⟨?_, ?_, ?_⟩
  · intro p h
    unfold vendorQuoteApprovalWebhook
    rw [h]
    simp [truthyO, JVal.truthy]
  · intro p h
    unfold vendorQuoteApprovalWebhook
    rw [h]
    simp [truthyO, JVal.truthy]
  · intro p ht ha hd hno
    unfold erpClassify
    rw [ht, ha, hd]
    rcases hno with hno | hno <;> rw [hno] <;> simp [truthyO, JVal.truthy]

/-- Witness for C10 at concrete rejected payloads. -/
theorem truthinessValidationRejects_witness :
    vendorQuoteApprovalWebhook
      (.vObj [("mpRfqId", .vStr "R1"), ("rfqLineNo", .vNum 0),
        ("vendorNo", .vStr "V1"), ("systemId", .vStr "S1")]) = .missingFields
  ∧ vendorQuoteApprovalWebhook
      (.vObj [("mpRfqId", .vStr "R1"), ("rfqLineNo", .vNum 3),
        ("vendorNo", .vStr "V1"), ("systemId", .vStr "")]) = .missingFields
  ∧ erpClassify
      (.vObj [("table", .vStr "Item"), ("action", .vStr "update"),
        ("data", .vObj [("No.", .vNum 0)])]) = .erpNoMissing
  ∧ erpClassify
      (.vObj [("table", .vStr "Item"), ("action", .vStr "update"),
        ("data", .vObj [("No.", .vStr "")])]) = .erpNoMissing :=
  ⟨truthinessValidationRejects.1 _ rfl,
   truthinessValidationRejects.2.1 _ rfl,
   truthinessValidationRejects.2.2 _ rfl rfl rfl (.inl rfl),
   truthinessValidationRejects.2.2 _ rfl rfl rfl (.inr rfl)⟩

/-! ## C5 — validation-handshake short-circuit -/

/-- C5 counterexample: a POST carrying the `validationToken` query parameter
with the empty-string value is *not* echoed — `if (validationToken)` tests JS
truthiness, so the handler falls through to notification validation and
answers 400 — while the claim promises a 200 plain-text echo of the exact
token value for every request carrying the parameter. -/
theorem handshakeShortCircuit_counterexample :
    graphWebhookPost (some "") (.vObj []) = (.badRequest, [])
  ∧ GraphResp.badRequest ≠ .echoText "" :=
  ⟨rfl, by decide⟩

/-- C5 amended: for every POST to the Graph webhook carrying a *non-empty*
`validationToken` query parameter, the handler answers 200 text/plain with
exactly the token as body and enqueues nothing; and whenever no truthy query
token is present and the body is a string shorter than 200 characters not
starting with `{`, the handler answers 200 text/plain echoing exactly the
body and enqueues nothing. -/
theorem handshakeShortCircuit_amended :
    (∀ t body, t ≠ "" → graphWebhookPost (some t) body = (.echoText t, []))
  ∧ (∀ vt s, (vt = none ∨ vt = some "") → s.length < 200 →
        strBegins s "\x7b" = false →
        graphWebhookPost vt (.vStr s) = (.echoText s, [])) := by
  constructor
  · intro t body ht
    unfold graphWebhookPost
    simp [ht]
  · intro vt s hvt hlen hpre
    rcases hvt with rfl | rfl <;>
      · unfold graphWebhookPost graphWebhookPost.graphWebhookNotifBranch
        simp [hlen, hpre]

/-- Witness for C5: a non-empty token, and a short non-JSON text body. -/
theorem handshakeShortCircuit_witness :
    graphWebhookPost (some "tok-123") (.vObj [("value", .vArr [])])
      = (.echoText "tok-123", [])
  ∧ graphWebhookPost none (.vStr "validation abc")
      = (.echoText "validation abc", []) :=
  ⟨handshakeShortCircuit_amended.1 "tok-123" _ (by decide),
   handshakeShortCircuit_amended.2 none "validation abc" (.inl rfl)
     (by decide) (by decide)⟩

/-! ## C6 — partial-batch skipping -/

/-- The job, if any, a notification record yields. -/
def notifJob (r : JVal) : Option Job :=
  match notifStep r with
  | .enq j => some j
  | _ => none

/-- Whether handling a record does not throw (no `null` record, no non-string
truthy `resource` on a created record). -/
def notifNoThrow (r : JVal) : Bool :=
  match notifStep r with
  | .errored => false
  | _ => true

theorem processNotifs_filterMap (records : List JVal)
    (h : ∀ r ∈ records, notifNoThrow r = true) :
    processNotifs records = (records.filterMap notifJob, true) := by
  induction records with
  | nil => rfl
  | cons r rest ih =>
      have hr := h r (List.mem_cons_self r rest)
      have hrest := ih (fun x hx => h x (List.mem_cons_of_mem r hx))
      unfold processNotifs
      cases hstep : notifStep r with
      | errored =>
          rw [notifNoThrow, hstep] at hr
          exact absurd hr (by simp)
      | skipped =>
          simp only [hstep, hrest, List.filterMap_cons, notifJob]
      | enq j =>
          simp only [hstep, hrest, List.filterMap_cons, notifJob]

/-- C6: for a Graph notification batch in which no record throws, each
created-message record lacking a truthy `resourceData.id` is skipped
individually, the remaining records still produce their jobs in order
(`filterMap`), and the overall response is the 202 acceptance. -/
theorem partialBatchSkipping (records : List JVal)
    (h : ∀ r ∈ records, notifNoThrow r = true) :
    graphWebhookPost none (.vObj [("value", .vArr records)])
      = (.acceptedResp, records.filterMap notifJob) := by
  have hp := processNotifs_filterMap records h
  show (if (processNotifs records).2 then GraphResp.acceptedResp else .serverError,
        (processNotifs records).1)
      = (.acceptedResp, records.filterMap notifJob)
  rw [hp]
  rfl

/-- A created-message record with no `resourceData` (hence no message id). -/
def wBatchNoId : JVal :=
  .vObj [("changeType", .vStr "created"),
    ("resource", .vStr "Users/u2/Messages/y")]

/-- A third dispatch-worthy record, message id `m3`. -/
def wNotifRec3 : JVal :=
  .vObj [("subscriptionId", .vStr "sub3"), ("changeType", .vStr "created"),
    ("resource", .vStr "Users/u3/Messages/m3"),
    ("resourceData", .vObj [("id", .vStr "m3")])]

/-- Witness for C6: a batch of 3 created-message records where record 2 lacks
a resource id yields exactly the 2 jobs of records 1 and 3, and the 202
response. -/
theorem partialBatchSkipping_witness :
    graphWebhookPost none (.vObj [("value", .vArr [wNotifRec, wBatchNoId, wNotifRec3])])
      = (.acceptedResp, [quoteIngestionJob (.vStr "m1"), quoteIngestionJob (.vStr "m3")])
  ∧ [quoteIngestionJob (.vStr "m1"), quoteIngestionJob (.vStr "m3")].length = 2 :=
  ⟨(partialBatchSkipping [wNotifRec, wBatchNoId, wNotifRec3] (by decide)).trans (by rfl),
   rfl⟩

/-! ## C2 — at most one pending timer per key -/

theorem lookup_pmapSet_self (k : String) (v : Nat) (m : List (String × Nat)) :
    (pmapSet k v m).lookup k = some v := by
  simp [pmapSet, List.lookup]

theorem lookup_filter_ne (k p : String) (h : k ≠ p) :
    ∀ m : List (String × Nat),
      (m.filter (fun e => e.1 != p)).lookup k = m.lookup k := by
  intro m
  induction m with
  | nil => rfl
  | cons e m ih =>
      by_cases he : e.1 = p
      · have : (e.1 != p) = false := by simp [he]
        rw [List.filter_cons, this]
        simp only [Bool.false_eq_true, if_false, ih]
        have : (k == e.1) = false := by simp [he, h]
        simp [List.lookup, this]
      · have : (e.1 != p) = true := by simp [he]
        rw [List.filter_cons, this]
        simp only [if_true]
        by_cases hk : k = e.1
        · simp [List.lookup, hk]
        · have hke : (k == e.1) = false := by simp [hk]
          simp [List.lookup, hke, ih]

theorem lookup_pmapSet_ne (k p : String) (v : Nat) (m : List (String × Nat))
    (h : k ≠ p) : (pmapSet p v m).lookup k = m.lookup k := by
  have hk : (k == p) = false := by simp [h]
  simp only [pmapSet, List.lookup, hk]
  exact lookup_filter_ne k p h m

theorem lookup_pmapDel_ne (k p : String) (m : List (String × Nat))
    (h : k ≠ p) : (pmapDel p m).lookup k = m.lookup k :=
  lookup_filter_ne k p h m

theorem mem_deactivate_active {tm : Timer} {x : Nat} {l : List Timer}
    (hm : tm ∈ deactivate x l) (ha : tm.active = true) :
    tm ∈ l ∧ tm.tid ≠ x := by
  obtain ⟨tm0, hm0, heq⟩ := List.mem_map.1 hm
  by_cases hx : tm0.tid = x
  · rw [if_pos hx] at heq
    rw [← heq] at ha
    simp at ha
  · rw [if_neg hx] at heq
    subst heq
    exact ⟨hm0, hx⟩

theorem map_tid_deactivate (x : Nat) (l : List Timer) :
    (deactivate x l).map Timer.tid = l.map Timer.tid := by
  induction l with
  | nil => rfl
  | cons tm l ih =>
      simp only [deactivate, List.map_cons] at ih ⊢
      rw [ih]
      by_cases hx : tm.tid = x
      · rw [if_pos hx]
      · rw [if_neg hx]

theorem length_le_one_of_const_nodup {l : List Nat} (hn : l.Nodup) (c : Nat)
    (hc : ∀ x ∈ l, x = c) : l.length ≤ 1 := by
  match l with
  | [] => simp
  | [a] => simp
  | a :: b :: t =>
      exfalso
      have ha := hc a (by simp)
      have hb := hc b (by simp)
      rw [List.nodup_cons] at hn
      refine hn.1 ?_
      rw [ha, ← hb]
      exact List.mem_cons_self b t

/-- The coordinator invariant: the `pendingEvents` map tracks every scheduled
timer under its key, timer ids are fresh and distinct, and no scheduled timer
shares a key with an in-flight submission. -/
structure DInv (s : DState) : Prop where
  mapIds : ∀ tm ∈ s.timers, tm.active = true → s.pmap.lookup tm.key = some tm.tid
  idsNodup : (s.timers.map Timer.tid).Nodup
  idsLt : ∀ tm ∈ s.timers, tm.tid < s.nextId
  inflightKeys : ∀ q ∈ s.inflight, ∀ tm ∈ s.timers, tm.active = true → tm.key ≠ q.key

theorem DInv.pendingFor_le_one {s : DState} (h : DInv s) (k : String) :
    (pendingFor s k).length ≤ 1 := by
  have hsub : List.Sublist ((pendingFor s k).map Timer.tid)
      (s.timers.map Timer.tid) :=
    (List.filter_sublist s.timers).map Timer.tid
  have hnd : ((pendingFor s k).map Timer.tid).Nodup := h.idsNodup.sublist hsub
  cases hlk : s.pmap.lookup k with
  | none =>
      cases hpf : pendingFor s k with
      | nil => simp [hpf]
      | cons tm l =>
          exfalso
          have hm : tm ∈ pendingFor s k := by rw [hpf]; exact List.mem_cons_self tm l
          have := List.mem_filter.1 hm
          have hk : tm.key = k := by
            have := this.2
            simp at this
            exact this.2
          have ha : tm.active = true := by
            have := this.2
            simp at this
            exact this.1
          have := h.mapIds tm this.1 ha
          rw [hk, hlk] at this
          exact absurd this (by simp)
  | some c =>
      rw [← List.length_map (pendingFor s k) Timer.tid]
      refine length_le_one_of_const_nodup hnd c ?_
      intro x hx
      obtain ⟨tm, hm, rfl⟩ := List.mem_map.1 hx
      have hmf := List.mem_filter.1 hm
      have hflag := hmf.2
      simp at hflag
      have := h.mapIds tm hmf.1 hflag.1
      rw [hflag.2, hlk] at this
      exact (Option.some.inj this).symm

theorem mem_deactivate_tid {tm : Timer} {x : Nat} {l : List Timer}
    (hm : tm ∈ deactivate x l) : ∃ tm0 ∈ l, tm.tid = tm0.tid := by
  obtain ⟨tm0, hm0, heq⟩ := List.mem_map.1 hm
  refine ⟨tm0, hm0, ?_⟩
  by_cases hx : tm0.tid = x
  · rw [if_pos hx] at heq
    rw [← heq]
  · rw [if_neg hx] at heq
    rw [← heq]

/-- Whether an action is an arrival for a key that currently has a fired
timer's submission still in flight (the race window the design accepts). -/
def arriveOkHere (s : DState) : DAct → Bool
  | .arrive _ p =>
      match erpClassify p with
      | .accepted key => s.inflight.all (fun q => q.key != key)
      | _ => true
  | _ => true

/-- A trace in which no accepted arrival happens while a submission for the
same key is in flight. -/
def goodTrace : DState → List DAct → Bool
  | _, [] => true
  | s, a :: rest =>
      arriveOkHere s a &&
        (match dStep s a with
         | some s1 => goodTrace s1 rest
         | none => true)

theorem dStep_inv {s s1 : DState} {a : DAct} (hstep : dStep s a = some s1)
    (hok : arriveOkHere s a = true) (hinv : DInv s) : DInv s1 := by
  cases a with
  | arrive t p =>
      simp only [dStep] at hstep
      split at hstep
      · exact absurd hstep (by simp)
      · split at hstep
        · next key heq =>
          simp only [arriveOkHere, heq] at hok
          cases hlk : s.pmap.lookup key with
          | some tid0 =>
              rw [hlk] at hstep
              cases hstep
              refine ⟨?_, ?_, ?_, ?_⟩
              · intro tm hm ha
                rcases List.mem_cons.1 hm with rfl | hm2
                · exact lookup_pmapSet_self key s.nextId s.pmap
                · obtain ⟨hmem, hne⟩ := mem_deactivate_active hm2 ha
                  have hold := hinv.mapIds tm hmem ha
                  by_cases hk : tm.key = key
                  · rw [hk, hlk] at hold
                    exact absurd (Option.some.inj hold).symm hne
                  · rw [lookup_pmapSet_ne tm.key key s.nextId s.pmap hk]
                    exact hold
              · rw [List.map_cons, map_tid_deactivate, List.nodup_cons]
                refine ⟨?_, hinv.idsNodup⟩
                intro hmem
                obtain ⟨tm, hm, htid⟩ := List.mem_map.1 hmem
                have h2 : tm.tid = s.nextId := htid
                have h3 := hinv.idsLt tm hm
                omega
              · intro tm hm
                rcases List.mem_cons.1 hm with rfl | hm2
                · exact Nat.lt_succ_self s.nextId
                · obtain ⟨tm0, hm0, htid⟩ := mem_deactivate_tid hm2
                  show tm.tid < s.nextId + 1
                  have h3 := hinv.idsLt tm0 hm0
                  omega
              · intro q hq tm hm ha
                rcases List.mem_cons.1 hm with rfl | hm2
                · have := List.all_eq_true.1 hok q hq
                  simp at this
                  exact fun hk => this hk.symm
                · obtain ⟨hmem, _⟩ := mem_deactivate_active hm2 ha
                  exact hinv.inflightKeys q hq tm hmem ha
          | none =>
              rw [hlk] at hstep
              cases hstep
              refine ⟨?_, ?_, ?_, ?_⟩
              · intro tm hm ha
                rcases List.mem_cons.1 hm with rfl | hm2
                · exact lookup_pmapSet_self key s.nextId s.pmap
                · have hold := hinv.mapIds tm hm2 ha
                  by_cases hk : tm.key = key
                  · rw [hk, hlk] at hold
                    exact absurd hold (by simp)
                  · rw [lookup_pmapSet_ne tm.key key s.nextId s.pmap hk]
                    exact hold
              · rw [List.map_cons, List.nodup_cons]
                refine ⟨?_, hinv.idsNodup⟩
                intro hmem
                obtain ⟨tm, hm, htid⟩ := List.mem_map.1 hmem
                have h2 : tm.tid = s.nextId := htid
                have h3 := hinv.idsLt tm hm
                omega
              · intro tm hm
                rcases List.mem_cons.1 hm with rfl | hm2
                · exact Nat.lt_succ_self s.nextId
                · show tm.tid < s.nextId + 1
                  have h3 := hinv.idsLt tm hm2
                  omega
              · intro q hq tm hm ha
                rcases List.mem_cons.1 hm with rfl | hm2
                · have := List.all_eq_true.1 hok q hq
                  simp at this
                  exact fun hk => this hk.symm
                · exact hinv.inflightKeys q hq tm hm2 ha
        · cases hstep
          exact ⟨hinv.mapIds, hinv.idsNodup, hinv.idsLt, hinv.inflightKeys⟩
  | fire t tid =>
      simp only [dStep] at hstep
      split at hstep
      · exact absurd hstep (by simp)
      · split at hstep
        · next tm0 heq =>
          split at hstep
          · next hcond =>
            cases hstep
            have hcond2 := hcond
            rw [Bool.and_eq_true] at hcond2
            have ha0 : tm0.active = true := hcond2.1
            have hmem0 : tm0 ∈ s.timers := List.mem_of_find?_eq_some heq
            have htid0 : tm0.tid = tid := by
              have := List.find?_some heq
              simpa using this
            refine ⟨?_, ?_, ?_, ?_⟩
            · intro tm hm ha
              obtain ⟨hmem, _⟩ := mem_deactivate_active hm ha
              exact hinv.mapIds tm hmem ha
            · rw [map_tid_deactivate]
              exact hinv.idsNodup
            · intro tm hm
              obtain ⟨tm1, hm1, htid⟩ := mem_deactivate_tid hm
              show tm.tid < s.nextId
              have h3 := hinv.idsLt tm1 hm1
              omega
            · intro q hq tm hm ha
              obtain ⟨hmem, hne⟩ := mem_deactivate_active hm ha
              rcases List.mem_append.1 hq with hq2 | hq2
              · exact hinv.inflightKeys q hq2 tm hmem ha
              · rw [List.mem_singleton.1 hq2]
                intro hk
                have hk2 : tm.key = tm0.key := hk
                have h1 := hinv.mapIds tm hmem ha
                have h2 := hinv.mapIds tm0 hmem0 ha0
                rw [← hk2] at h2
                rw [h1] at h2
                exact hne ((Option.some.inj h2).trans htid0)
          · exact absurd hstep (by simp)
        · exact absurd hstep (by simp)
  | resolve t tid =>
      simp only [dStep] at hstep
      split at hstep
      · exact absurd hstep (by simp)
      · split at hstep
        · next q0 heq =>
          cases hstep
          have hq0 : q0 ∈ s.inflight := List.mem_of_find?_eq_some heq
          refine ⟨?_, hinv.idsNodup, hinv.idsLt, ?_⟩
          · intro tm hm ha
            have hne := hinv.inflightKeys q0 hq0 tm hm ha
            rw [lookup_pmapDel_ne tm.key q0.key s.pmap hne]
            exact hinv.mapIds tm hm ha
          · intro q hq tm hm ha
            exact hinv.inflightKeys q (List.mem_filter.1 hq).1 tm hm ha
        · exact absurd hstep (by simp)

theorem dRun_inv : ∀ (acts : List DAct) {s0 s : DState},
    dRun s0 acts = some s → goodTrace s0 acts = true → DInv s0 → DInv s := by
  intro acts
  induction acts with
  | nil =>
      intro s0 s h _ hinv
      cases h
      exact hinv
  | cons a rest ih =>
      intro s0 s h hg hinv
      unfold dRun at h
      split at h
      · next s1 hstep =>
        unfold goodTrace at hg
        rw [Bool.and_eq_true] at hg
        have hg2 := hg.2
        rw [hstep] at hg2
        exact ih h hg2 (dStep_inv hstep hg.1 hinv)
      · exact absurd h (by simp)

theorem dInit_inv : DInv dInit := by
  refine ⟨?_, ?_, ?_, ?_⟩ <;> simp [dInit]

/-- The race trace: `Item:X1` arrives at 0; its timer fires at 10000 and the
submission is in flight; a second same-key event arrives at 10500 (the map
still holds the fired timer, so `clearTimeout` is a no-op and a new timer is
scheduled and mapped); the first callback's `finally` then deletes the map
entry at 11000 — removing the *new* timer's entry; a third event at 12000
finds no map entry and schedules yet another timer. -/
def c2Trace : List DAct :=
  [.arrive 0 pA, .fire 10000 0, .arrive 10500 pB, .resolve 11000 0,
    .arrive 12000 pC]

/-- C2 counterexample: a reachable state (reached while a fired timer's
broker submission was still in flight as a new same-key event arrived) holds
*two* scheduled, uncancelled debounce timers for the key `Item:X1`. -/
theorem debounceTimerInvariant_counterexample :
    (dRun dInit c2Trace).map (fun s => (pendingFor s "Item:X1").length)
      = some 2 := rfl

/-- C2 amended: at most one pending (scheduled, uncancelled) debounce timer
per correlation key holds in every state reachable by a trace in which no
same-key event arrives while that key's fired-timer submission is still in
flight; a same-key arrival inside that in-flight window can leave an
untracked scheduled timer (the `finally` delete removes the newer map entry),
after which a further arrival schedules a second timer for the key. -/
theorem debounceTimerInvariant_amended (acts : List DAct) (s : DState)
    (k : String) (hrun : dRun dInit acts = some s)
    (hgood : goodTrace dInit acts = true) :
    (pendingFor s k).length ≤ 1 :=
  (dRun_inv acts hrun hgood dInit_inv).pendingFor_le_one k

/-- A race-free trace: two same-key events, fire, resolve, then a later
fresh event after the submission has settled. -/
def c2WitnessTrace : List DAct :=
  [.arrive 0 pA, .arrive 1000 pB, .fire 11000 1, .resolve 11100 1,
    .arrive 20000 pC]

/-- Witness for C2 (amended) on a concrete race-free trace. -/
theorem debounceTimerInvariant_witness :
    (pendingFor ((dRun dInit c2WitnessTrace).getD dInit) "Item:X1").length ≤ 1 :=
  debounceTimerInvariant_amended c2WitnessTrace
    ((dRun dInit c2WitnessTrace).getD dInit) "Item:X1" rfl rfl

/-! ## C1 — debounce coalescing -/

theorem mem_deactivate_inactive {l : List Timer} {x : Nat}
    (h : ∀ tm ∈ l, tm.active = true → tm.tid = x) :
    ∀ tm ∈ deactivate x l, tm.active = false := by
  intro tm hm
  obtain ⟨tm0, hm0, heq⟩ := List.mem_map.1 hm
  by_cases hx : tm0.tid = x
  · rw [if_pos hx] at heq
    rw [← heq]
  · rw [if_neg hx] at heq
    subst heq
    cases ha : tm0.active with
    | false => rfl
    | true => exact absurd (h tm0 hm0 ha) hx

/-- Consecutive arrivals each strictly within the debounce window of their
predecessor. -/
def gapsOk : List (Nat × JVal) → Bool
  | e1 :: e2 :: rest => (e2.1 < e1.1 + DEBOUNCE_MS) && gapsOk (e2 :: rest)
  | _ => true

/-- Debounce lifecycle phase after the event `(te, pe)` for key `k` was the
last to arrive: its timer is scheduled and mapped, every earlier timer is
cancelled, nothing has been submitted. -/
def phWaiting (k : String) (te : Nat) (pe : JVal) (s : DState) : Prop :=
  ∃ tid rest, s.timers = ⟨tid, k, pe, te + DEBOUNCE_MS, true⟩ :: rest
    ∧ (∀ tm ∈ rest, tm.active = false)
    ∧ s.pmap = [(k, tid)] ∧ s.inflight = [] ∧ s.submitted = [] ∧ s.time = te

/-- The timer for `(te, pe)` has fired: its submission was issued and its
`finally` cleanup is pending; the map still holds the fired timer. -/
def phInFlight (k : String) (te : Nat) (pe : JVal) (s : DState) : Prop :=
  ∃ tid, (∀ tm ∈ s.timers, tm.active = false) ∧ s.pmap = [(k, tid)]
    ∧ s.inflight = [⟨tid, k⟩] ∧ s.submitted = [erpJob pe]
    ∧ te + DEBOUNCE_MS ≤ s.time

/-- The submission for `(te, pe)` has settled and its map entry was
deleted. -/
def phDone (_k : String) (te : Nat) (pe : JVal) (s : DState) : Prop :=
  (∀ tm ∈ s.timers, tm.active = false) ∧ s.pmap = []
    ∧ s.inflight = [] ∧ s.submitted = [erpJob pe]
    ∧ te + DEBOUNCE_MS ≤ s.time

/-- Any of the three lifecycle phases for last event `(te, pe)`. -/
def phAny (k : String) (te : Nat) (pe : JVal) (s : DState) : Prop :=
  phWaiting k te pe s ∨ phInFlight k te pe s ∨ phDone k te pe s

theorem debounceCoalescing_aux (k : String) : ∀ (acts : List DAct),
    ∀ (s0 sF : DState) (te : Nat) (pe : JVal) (rem : List (Nat × JVal)),
      phAny k te pe s0 →
      arrivesOf acts = rem →
      (∀ e ∈ rem, erpClassify e.2 = .accepted k) →
      gapsOk ((te, pe) :: rem) = true →
      dRun s0 acts = some sF →
      quiescent sF = true →
      sF.submitted = [erpJob (rem.getLastD (te, pe)).2] := by
  intro acts
  induction acts with
  | nil =>
      intro s0 sF te pe rem hph harr hkeys hgaps hrun hq
      cases hrun
      subst harr
      rcases hph with hw | hf | hd
      · obtain ⟨tw, trest, htimers, _, _, _, _, _⟩ := hw
        simp only [quiescent, htimers] at hq
        simp at hq
      · obtain ⟨ti, _, _, hinfl, _, _⟩ := hf
        simp only [quiescent, hinfl] at hq
        simp at hq
      · exact hd.2.2.2.1
  | cons a rest ih =>
      intro s0 sF te pe rem hph harr hkeys hgaps hrun hq
      unfold dRun at hrun
      split at hrun
      · next s1 hstep =>
        cases a with
        | arrive t p =>
            simp only [arrivesOf] at harr
            subst harr
            simp only [gapsOk, Bool.and_eq_true, decide_eq_true_eq] at hgaps
            have hk1 : erpClassify p = .accepted k :=
              hkeys (t, p) (List.mem_cons_self _ _)
            have hkeys2 : ∀ e ∈ arrivesOf rest, erpClassify e.2 = .accepted k :=
              fun e he => hkeys e (List.mem_cons_of_mem _ he)
            rcases hph with hw | hf | hd
            · obtain ⟨tw, trest, htimers, hrest, hpmap, hinfl, hsub, htime⟩ := hw
              simp only [dStep] at hstep
              split at hstep
              · exact absurd hstep (by simp)
              · next hge =>
                have hlk : s0.pmap.lookup k = some tw := by
                  rw [hpmap]
                  simp [List.lookup]
                simp only [hk1, hlk] at hstep
                cases hstep
                rw [List.getLastD_cons]
                refine ih _ sF t p (arrivesOf rest) (Or.inl ?_) rfl hkeys2
                  hgaps.2 hrun hq
                have hact : ∀ tm ∈ s0.timers, tm.active = true → tm.tid = tw := by
                  intro tm hm ha
                  rw [htimers] at hm
                  rcases List.mem_cons.1 hm with rfl | hm2
                  · rfl
                  · rw [hrest tm hm2] at ha
                    exact absurd ha (by simp)
                refine ⟨s0.nextId, deactivate tw s0.timers, rfl,
                  mem_deactivate_inactive hact, ?_, hinfl, hsub, rfl⟩
                rw [hpmap]
                simp [pmapSet]
            · exfalso
              obtain ⟨ti, _, _, _, _, htime⟩ := hf
              simp only [dStep] at hstep
              split at hstep
              · exact absurd hstep (by simp)
              · next hge =>
                have h1 := hgaps.1
                omega
            · exfalso
              obtain ⟨_, _, _, _, htime⟩ := hd
              simp only [dStep] at hstep
              split at hstep
              · exact absurd hstep (by simp)
              · next hge =>
                have h1 := hgaps.1
                omega
        | fire t tid =>
            simp only [arrivesOf] at harr
            rcases hph with hw | hf | hd
            · obtain ⟨tw, trest, htimers, hrest, hpmap, hinfl, hsub, htime⟩ := hw
              simp only [dStep] at hstep
              split at hstep
              · exact absurd hstep (by simp)
              · next hge =>
                rw [htimers] at hstep
                simp only [List.find?] at hstep
                by_cases htw : tw = tid
                · subst htw
                  simp only [beq_self_eq_true] at hstep
                  by_cases hdue : te + DEBOUNCE_MS ≤ t
                  · simp only [Bool.true_and, decide_eq_true_eq] at hstep
                    rw [if_pos hdue] at hstep
                    cases hstep
                    refine ih _ sF te pe rem (Or.inr (Or.inl ?_)) harr hkeys
                      hgaps hrun hq
                    have hact : ∀ tm ∈
                        ({ tid := tw, key := k, payload := pe,
                           fireAt := te + DEBOUNCE_MS, active := true } :: trest :
                          List Timer),
                        tm.active = true → tm.tid = tw := by
                      intro tm hm ha
                      rcases List.mem_cons.1 hm with rfl | hm2
                      · rfl
                      · rw [hrest tm hm2] at ha
                        exact absurd ha (by simp)
                    refine ⟨tw, mem_deactivate_inactive hact, hpmap, ?_, ?_, hdue⟩
                    · rw [hinfl]
                      rfl
                    · rw [hsub]
                      rfl
                  · simp [hdue] at hstep
                · have hbeq : (tw == tid) = false := by
                    simp [htw]
                  rw [hbeq] at hstep
                  cases hfd : List.find? (fun tm => tm.tid == tid) trest with
                  | none =>
                      simp only [hfd] at hstep
                      exact absurd hstep (by simp)
                  | some tm =>
                      simp only [hfd] at hstep
                      have hmem := List.mem_of_find?_eq_some hfd
                      simp [hrest tm hmem] at hstep
            · obtain ⟨ti, hall, hpmap, hinfl, hsub, htime⟩ := hf
              simp only [dStep] at hstep
              split at hstep
              · exact absurd hstep (by simp)
              · next hge =>
                cases hfd : List.find? (fun tm => tm.tid == tid) s0.timers with
                | none =>
                    simp only [hfd] at hstep
                    exact absurd hstep (by simp)
                | some tm =>
                    simp only [hfd] at hstep
                    have hmem := List.mem_of_find?_eq_some hfd
                    simp [hall tm hmem] at hstep
            · obtain ⟨hall, hpmap, hinfl, hsub, htime⟩ := hd
              simp only [dStep] at hstep
              split at hstep
              · exact absurd hstep (by simp)
              · next hge =>
                cases hfd : List.find? (fun tm => tm.tid == tid) s0.timers with
                | none =>
                    simp only [hfd] at hstep
                    exact absurd hstep (by simp)
                | some tm =>
                    simp only [hfd] at hstep
                    have hmem := List.mem_of_find?_eq_some hfd
                    simp [hall tm hmem] at hstep
        | resolve t tid =>
            simp only [arrivesOf] at harr
            rcases hph with hw | hf | hd
            · obtain ⟨tw, trest, htimers, hrest, hpmap, hinfl, hsub, htime⟩ := hw
              simp only [dStep] at hstep
              split at hstep
              · exact absurd hstep (by simp)
              · next hge =>
                rw [hinfl] at hstep
                simp only [List.find?] at hstep
                exact absurd hstep (by simp)
            · obtain ⟨ti, hall, hpmap, hinfl, hsub, htime⟩ := hf
              simp only [dStep] at hstep
              split at hstep
              · exact absurd hstep (by simp)
              · next hge =>
                rw [hinfl] at hstep
                simp only [List.find?] at hstep
                by_cases hti : ti = tid
                · subst hti
                  simp only [beq_self_eq_true] at hstep
                  cases hstep
                  refine ih _ sF te pe rem (Or.inr (Or.inr ?_)) harr hkeys
                    hgaps hrun hq
                  refine ⟨hall, ?_, ?_, hsub, ?_⟩
                  · rw [hpmap]
                    simp [pmapDel]
                  · simp
                  · show te + DEBOUNCE_MS ≤ t
                    omega
                · have hbeq : (ti == tid) = false := by simp [hti]
                  simp only [hbeq] at hstep
                  exact absurd hstep (by simp)
            · obtain ⟨hall, hpmap, hinfl, hsub, htime⟩ := hd
              simp only [dStep] at hstep
              split at hstep
              · exact absurd hstep (by simp)
              · next hge =>
                rw [hinfl] at hstep
                simp only [List.find?] at hstep
                exact absurd hstep (by simp)
      · exact absurd hrun (by simp)

/-- C1: for every sequence of two or more ERP change events accepted under
the same correlation key, each arriving strictly within the 10-second
quiescence window of its predecessor, any complete run of the event loop
(its arrivals being exactly that sequence) that ends quiescent performs
exactly one job submission to the broker, and the submitted payload is that
of the last event of the sequence. -/
theorem debounceCoalescing (k : String) (acts : List DAct)
    (es : List (Nat × JVal)) (sF : DState)
    (hlen : 2 ≤ es.length)
    (harr : arrivesOf acts = es)
    (hkeys : ∀ e ∈ es, erpClassify e.2 = .accepted k)
    (hgaps : gapsOk es = true)
    (hrun : dRun dInit acts = some sF)
    (hq : quiescent sF = true) :
    sF.submitted = [erpJob ((es.getLastD (0, .vNull)).2)] := by
  cases acts with
  | nil =>
      subst harr
      simp [arrivesOf] at hlen
  | cons a rest =>
      unfold dRun at hrun
      split at hrun
      · next s1 hstep =>
        cases a with
        | arrive t p =>
            simp only [arrivesOf] at harr
            subst harr
            have hk1 : erpClassify p = .accepted k :=
              hkeys (t, p) (List.mem_cons_self _ _)
            have hkeys2 : ∀ e ∈ arrivesOf rest, erpClassify e.2 = .accepted k :=
              fun e he => hkeys e (List.mem_cons_of_mem _ he)
            simp only [dStep, dInit] at hstep
            rw [if_neg (by omega)] at hstep
            simp only [hk1, List.lookup] at hstep
            cases hstep
            rw [List.getLastD_cons]
            exact debounceCoalescing_aux k rest _ sF t p (arrivesOf rest)
              (Or.inl ⟨0, [], rfl, by simp, rfl, rfl, rfl, rfl⟩) rfl hkeys2
              hgaps hrun hq
        | fire t tid =>
            simp only [dStep, dInit, List.find?] at hstep
            split at hstep <;> exact absurd hstep (by simp)
        | resolve t tid =>
            simp only [dStep, dInit, List.find?] at hstep
            split at hstep <;> exact absurd hstep (by simp)
      · exact absurd hrun (by simp)

/-- The witness trace: two same-key ERP events 1 s apart, the surviving
timer firing after its window, the submission settling. -/
def c1Trace : List DAct :=
  [.arrive 0 pA, .arrive 1000 pB, .fire 11000 1, .resolve 11100 1]

/-- Witness for C1: the concrete two-event burst submits exactly one
`bc-sync` job, carrying the payload of the second (last) event. -/
theorem debounceCoalescing_witness :
    ((dRun dInit c1Trace).getD dInit).submitted = [erpJob pB] :=
  debounceCoalescing "Item:X1" c1Trace [(0, pA), (1000, pB)]
    ((dRun dInit c1Trace).getD dInit) (by decide) rfl (by decide) (by decide)
    rfl rfl
